import Mathlib

/-!
# gator-cli: the feed-scraping scheduler and ingestion pipeline

A shallow embedding of `fetchFeed`, `scrapeFeeds` and `handlerAgg` from `main.go`.

The Go code talks to three kinds of collaborators that are not part of `main.go`:

* the Go standard library and `uuid` (`time.ParseDuration`, `time.Parse`, `time.Now`,
  `time.NewTicker`, `html.UnescapeString`, `xml.Unmarshal`, `net/http`, `io.ReadAll`,
  `uuid.New`): the structure `Env` carries them as functions;
* the generated package `internal/database` (`GetNextFeedToFetch`, `MarkFeedFetched`,
  `CreatePost`): the structure `Queries` carries them as functions over an arbitrary store
  type `σ`;
* the console: `World.stdout` is the list of writes made by `fmt.Printf` / `fmt.Println`.

`World.calls` is a ghost trace: every call that leaves the process (a store operation, an
HTTP request, the creation of a ticker) is appended to it in program order.
-/

namespace Gator

/-! ## Data model -/

/-- A Go `error` value, represented by its message. -/
abbrev Error := String

/-- A `uuid.UUID`. -/
structure UUID where
  n : Nat
deriving DecidableEq, Repr

/-- A `time.Time`: an instant counted in nanoseconds from the zero value `time.Time{}`
(January 1, year 1, 00:00:00 UTC). -/
structure Time where
  nanos : Int
deriving DecidableEq, Repr

/-- The zero value `time.Time{}`. -/
def Time.zero : Time := ⟨0⟩

/-- The layout constant `time.UnixDate`. -/
def UnixDate : String := "Mon Jan _2 15:04:05 MST 2006"

/-- The struct `RSSItem` (main.go:44). -/
structure RSSItem where
  Title : String
  Link : String
  Description : String
  PubDate : String
deriving DecidableEq, Repr

/-- The anonymous `Channel struct` inside `RSSFeed` (main.go:36). -/
structure RSSChannel where
  Title : String
  Link : String
  Description : String
  Item : List RSSItem
deriving DecidableEq, Repr

/-- The struct `RSSFeed` (main.go:35). -/
structure RSSFeed where
  Channel : RSSChannel
deriving DecidableEq, Repr

/-- The zero value `RSSFeed{}`. -/
def RSSFeed.empty : RSSFeed := ⟨⟨"", "", "", []⟩⟩

/-- The struct `sql.NullString`: field `Str` stands for the Go field `String`. -/
structure NullString where
  Str : String
  Valid : Bool
deriving DecidableEq, Repr

/-- Modelled from the spec: `database.Feed`, a row of the generated package
`internal/database` that is not among the sources. `main.go` reads `ID` and `Url`
(main.go:228, 236) and fills `ID`, `CreatedAt`, `UpdatedAt`, `Name`, `Url`, `UserID` on
creation (main.go:306); `LastFetchedAt` is the nullable `last_fetched_at` of the spec. -/
structure Feed where
  ID : UUID
  CreatedAt : Time
  UpdatedAt : Time
  Name : String
  Url : String
  UserID : UUID
  LastFetchedAt : Option Time
deriving DecidableEq, Repr

/-- The struct `database.MarkFeedFetchedParams` as built at main.go:227. -/
structure MarkFeedFetchedParams where
  ID : UUID
  UpdatedAt : Time
deriving DecidableEq, Repr

/-- The struct `database.CreatePostParams` as built at main.go:247. -/
structure CreatePostParams where
  ID : UUID
  CreatedAt : Time
  UpdatedAt : Time
  Title : NullString
  Url : String
  Description : NullString
  PublishedAt : Time
  FeedID : UUID
deriving DecidableEq, Repr

/-- Modelled from the spec: `database.Post`, the stored record of one feed item
("identity, title (optional), URL, description (optional), parsed publish timestamp, owning
feed reference, creation metadata"). -/
structure Post where
  ID : UUID
  CreatedAt : Time
  UpdatedAt : Time
  Title : NullString
  Url : String
  Description : NullString
  PublishedAt : Time
  FeedID : UUID
deriving DecidableEq, Repr

/-- The struct `command` (main.go:26). -/
structure command where
  name : String
  args : List String
deriving DecidableEq, Repr

/-! ## Collaborators -/

/-- The library functions `main.go` calls.

* `ParseDuration s`: `time.ParseDuration`, the duration in nanoseconds.
* `Parse layout value`: `time.Parse`; every error of `time.Parse` comes with the zero
  `Time`, so the value read by `publishedAt, _ := time.Parse(..)` on an error is `Time.zero`.
* `UnescapeString`: `html.UnescapeString`.
* `Unmarshal data`: `xml.Unmarshal(data, &rssFeed)` into a fresh `RSSFeed`.
* `NewRequest url`: the error of `http.NewRequestWithContext(ctx, "GET", url, nil)`, if any.
* `Do k url`: `client.Do` for the `k`-th request the process sends: the response body
  stream, or the transport error.
* `ReadAll`: `io.ReadAll(response.Body)`.
* `Now k`: the `k`-th reading of `time.Now()`.
* `New k`: the `k`-th `uuid.New()`. -/
structure Env where
  ParseDuration : String → Except Error Int
  Parse : String → String → Except Error Time
  UnescapeString : String → String
  Unmarshal : String → Except Error RSSFeed
  NewRequest : String → Option Error
  Do : Nat → String → Except Error String
  ReadAll : String → Except Error String
  Now : Nat → Time
  New : Nat → UUID

/-- The three operations of `database.Queries` used by the scraper, over a store `σ`.
`GetNextFeedToFetch` is a query; the other two return the store they leave behind. -/
structure Queries (σ : Type) where
  GetNextFeedToFetch : σ → Except Error Feed
  MarkFeedFetched : σ → MarkFeedFetchedParams → Option Error × σ
  CreatePost : σ → CreatePostParams → Except Error Post × σ

/-- One entry of the ghost trace of calls leaving the process. -/
inductive Call where
  | GetNextFeedToFetch
  | MarkFeedFetched (arg : MarkFeedFetchedParams)
  | Do (url : String)
  | CreatePost (arg : CreatePostParams)
  | NewTicker (d : Int)
deriving DecidableEq, Repr

/-- Everything a run of the program can change. -/
structure World (σ : Type) where
  db : σ
  stdout : List String
  calls : List Call
  clock : Nat
  uuids : Nat
  requests : Nat

namespace World

variable {σ : Type}

/-- One write of `fmt.Println` / `fmt.Printf(".. \n")`. -/
def print (w : World σ) (line : String) : World σ :=
  { w with stdout := w.stdout ++ [line] }

/-- Appends to the ghost trace. -/
def record (w : World σ) (c : Call) : World σ :=
  { w with calls := w.calls ++ [c] }

/-- Reads `time.Now()`. -/
def now (env : Env) (w : World σ) : Time × World σ :=
  (env.Now w.clock, { w with clock := w.clock + 1 })

/-- Draws `uuid.New()`. -/
def newUUID (env : Env) (w : World σ) : UUID × World σ :=
  (env.New w.uuids, { w with uuids := w.uuids + 1 })

end World

/-- The number of feed selections in a trace: one per scrape cycle started. -/
def selections : List Call → Nat
  | [] => 0
  | Call.GetNextFeedToFetch :: cs => selections cs + 1
  | _ :: cs => selections cs

/-! ## fetchFeed (main.go:176) -/

/-- The body of `for _, item := range rssFeed.Channel.Item` (main.go:212-215). The state is
the feed together with the loop variable `item`; `range` copies the element into `item`, and
the two assignments write to that copy only. -/
def fetchFeed.body (env : Env) (st : RSSFeed × RSSItem) (elem : RSSItem) : RSSFeed × RSSItem :=
  let rssFeed := st.1
  let item := elem
  let item := { item with Title := env.UnescapeString item.Title }
  let item := { item with Description := env.UnescapeString item.Description }
  (rssFeed, item)

/-- The function `fetchFeed(ctx, feedURL)`: the pair `(*RSSFeed, error)` it returns and the
world after the call. `defer response.Body.Close()` has no effect on the model. -/
def fetchFeed {σ : Type} (env : Env) (feedURL : String) (w : World σ) :
    (RSSFeed × Option Error) × World σ :=
  match env.NewRequest feedURL with
  | some err => ((RSSFeed.empty, some err), w)
  | none =>
    let w := w.print ("Making request to " ++ feedURL)
    let k := w.requests
    let w := { w.record (Call.Do feedURL) with requests := w.requests + 1 }
    match env.Do k feedURL with
    | .error err => ((RSSFeed.empty, some err), w)
    | .ok body =>
      match env.ReadAll body with
      | .error err => ((RSSFeed.empty, some err), w)
      | .ok data =>
        match env.Unmarshal data with
        | .error err => ((RSSFeed.empty, some err), w)
        | .ok rssFeed =>
          let rssFeed : RSSFeed :=
            { rssFeed with Channel :=
                { rssFeed.Channel with Title := env.UnescapeString rssFeed.Channel.Title } }
          let rssFeed : RSSFeed :=
            { rssFeed with Channel :=
                { rssFeed.Channel with
                    Description := env.UnescapeString rssFeed.Channel.Description } }
          let st := rssFeed.Channel.Item.foldl (fetchFeed.body env)
            (rssFeed, (⟨"", "", "", ""⟩ : RSSItem))
          ((st.1, none), w)

/-! ## scrapeFeeds (main.go:220) -/

/-- The value bound by `publishedAt, _ := time.Parse(time.UnixDate, item.PubDate)`. -/
def publishedAtOf (env : Env) (item : RSSItem) : Time :=
  match env.Parse UnixDate item.PubDate with
  | .ok t => t
  | .error _ => Time.zero

/-- The body of `for _, item := range fetchedFeed.Channel.Item` (main.go:242-267). -/
def scrapeFeeds.body {σ : Type} (env : Env) (q : Queries σ) (nextFeed : Feed)
    (w : World σ) (item : RSSItem) : World σ :=
  let w := w.print ("- Title: " ++ item.Title)
  let publishedAt := publishedAtOf env item
  let (id, w) := w.newUUID env
  let (createdAt, w) := w.now env
  let (updatedAt, w) := w.now env
  let arg : CreatePostParams :=
    { ID := id
      CreatedAt := createdAt
      UpdatedAt := updatedAt
      Title := { Str := item.Title, Valid := true }
      Url := item.Link
      Description := { Str := item.Description, Valid := true }
      PublishedAt := publishedAt
      FeedID := nextFeed.ID }
  let r := q.CreatePost w.db arg
  let w := { w.record (Call.CreatePost arg) with db := r.2 }
  match r.1 with
  | .error err => w.print err
  | .ok _ => w

/-- The separator line printed at main.go:269. -/
def separator : String :=
  "----------------------------------------------------------------------------------------------------------------"

/-- The function `scrapeFeeds(s)`: the returned `error` and the world after the cycle. -/
def scrapeFeeds {σ : Type} (env : Env) (q : Queries σ) (w : World σ) :
    Option Error × World σ :=
  let r := q.GetNextFeedToFetch w.db
  let w := w.record Call.GetNextFeedToFetch
  match r with
  | .error err => (some err, w)
  | .ok nextFeed =>
    let (t, w) := w.now env
    let arg : MarkFeedFetchedParams := { ID := nextFeed.ID, UpdatedAt := t }
    let m := q.MarkFeedFetched w.db arg
    let w := { w.record (Call.MarkFeedFetched arg) with db := m.2 }
    match m.1 with
    | some err => (some err, w)
    | none =>
      let f := fetchFeed env nextFeed.Url w
      let w := f.2
      match f.1.2 with
      | some err => (some err, w)
      | none =>
        let fetchedFeed := f.1.1
        let w := fetchedFeed.Channel.Item.foldl (scrapeFeeds.body env q nextFeed) w
        let w := w.print separator
        (none, w)

/-! ## handlerAgg (main.go:274) -/

/-- How a call of `handlerAgg` stands after a given number of ticks. -/
inductive Outcome where
  | returned (err : Option Error)
  | panicked (msg : String)
  | waiting
deriving DecidableEq, Repr

/-- The library function `time.NewTicker(d)`: it panics on `d <= 0`, before any ticker exists;
otherwise the ticker is created. -/
def NewTicker {σ : Type} (d : Int) (w : World σ) : Except String (World σ) :=
  if d ≤ 0 then .error "non-positive interval for NewTicker"
  else .ok (w.record (Call.NewTicker d))

/-- The loop `for ; ; <-ticker.C { scrapeFeeds(s) }` (main.go:293) run until it blocks on
the receive after `ticks` ticks have been delivered: the body runs, then the post statement
receives a tick, then the body runs again. The value returned by `scrapeFeeds` is dropped. -/
def handlerAgg.loop {σ : Type} (env : Env) (q : Queries σ) : Nat → World σ → World σ
  | 0, w => (scrapeFeeds env q w).2
  | ticks + 1, w => scrapeFeeds env q (handlerAgg.loop env q ticks w) |>.2

/-- The function `handlerAgg(s, cmd)` observed once `ticks` ticks have been delivered by the
ticker. The deferred `ticker.Stop()` is never reached: the loop has no exit. -/
def handlerAgg {σ : Type} (env : Env) (q : Queries σ) (ticks : Nat) (cmd : command)
    (w : World σ) : Outcome × World σ :=
  if cmd.args.length ≠ 1 then (Outcome.returned (some "invalid number of params"), w)
  else
    let timeBetweenReqs := cmd.args.getD 0 ""
    match env.ParseDuration timeBetweenReqs with
    | .error err => (Outcome.returned (some err), w)
    | .ok parsedTimeBetweenReqs =>
      match NewTicker parsedTimeBetweenReqs w with
      | .error msg => (Outcome.panicked msg, w)
      | .ok w =>
        let w := w.print ("Collecting feeds every " ++ timeBetweenReqs)
        (Outcome.waiting, handlerAgg.loop env q ticks w)

/-! ## A store that follows the spec

`internal/database` is generated code that is not among the sources. `Store` is the feed
store as the spec describes it (§3, §4.1, §6). -/

/-- Modelled from the spec: the Feed Store, "durable relational storage of feeds .. and
posts" (§2); the rows are kept in insertion order. -/
structure Store where
  feeds : List Feed
  posts : List Post
deriving DecidableEq, Repr

/-- Modelled from the spec: `a` is due strictly before `b` in "oldest `last_fetched_at`
(nulls treated as oldest / always due first)" (§4.1 step 1). -/
def dueBefore : Option Time → Option Time → Bool
  | none, some _ => true
  | some x, some y => decide (x.nanos < y.nanos)
  | _, _ => false

/-- Modelled from the spec: the feed due first among `best :: rest`, "breaking ties
deterministically by insertion order" (§4.1 step 1). -/
def oldest : Feed → List Feed → Feed
  | best, [] => best
  | best, f :: rest =>
    if dueBefore f.LastFetchedAt best.LastFetchedAt then oldest f rest else oldest best rest

/-- Modelled from the spec: select-oldest-unfetched-feed() (§6); "If step 1 fails (no feeds
exist ..)" (§4.1). -/
def Store.GetNextFeedToFetch (s : Store) : Except Error Feed :=
  match s.feeds with
  | [] => .error "sql: no rows in result set"
  | f :: rest => .ok (oldest f rest)

/-- Modelled from the spec: mark-feed-fetched(feed_id, timestamp) (§6), "Mark that
feed `last_fetched_at` to the current time" (§4.1 step 2). -/
def Store.MarkFeedFetched (s : Store) (arg : MarkFeedFetchedParams) : Option Error × Store :=
  (none,
    { s with feeds := s.feeds.map fun f =>
        if f.ID = arg.ID then
          { f with LastFetchedAt := some arg.UpdatedAt, UpdatedAt := arg.UpdatedAt }
        else f })

/-- The message of the store error the spec calls `DuplicateURL`. -/
def duplicateURL : Error := "DuplicateURL"

/-- The row inserted for the arguments of insert-post. -/
def Post.ofParams (arg : CreatePostParams) : Post :=
  { ID := arg.ID
    CreatedAt := arg.CreatedAt
    UpdatedAt := arg.UpdatedAt
    Title := arg.Title
    Url := arg.Url
    Description := arg.Description
    PublishedAt := arg.PublishedAt
    FeedID := arg.FeedID }

/-- Modelled from the spec: insert-post(id, timestamps, title?, url, description?,
published_at, feed_id) "fails with `DuplicateURL`" (§6) when the URL is already stored ("URL
uniqueness is the practical de-duplication key", §3) and otherwise adds one row. -/
def Store.CreatePost (s : Store) (arg : CreatePostParams) : Except Error Post × Store :=
  if arg.Url ∈ s.posts.map Post.Url then (.error duplicateURL, s)
  else (.ok (Post.ofParams arg), { s with posts := s.posts ++ [Post.ofParams arg] })

/-- Modelled from the spec: the Feed Store operations consumed by the scraper (§6). -/
def specStore : Queries Store :=
  { GetNextFeedToFetch := Store.GetNextFeedToFetch
    MarkFeedFetched := Store.MarkFeedFetched
    CreatePost := Store.CreatePost }

/-! ## A concrete environment

The theorems below hold for every `Env`. To run the code on concrete inputs, `sampleEnv`
fixes one: its functions are finite samples of the library functions on the texts used
here. -/

namespace Lib

/-- The text `s` between double quotes, as the library prints the texts it rejects. -/
def quote (s : String) : String := "\"" ++ s ++ "\""

/-- A sample of `time.ParseDuration`: the durations, in nanoseconds, of the duration texts
used here, `0s`, `-5s` and `1s`, and of the two examples of the spec, `30s` and `1m`. The
text `soon` is no duration and gives the error of the library,
`time: invalid duration "soon"`. No other text is used here; the sample treats every other
text like `soon`. -/
def ParseDuration (s : String) : Except Error Int :=
  if s = "0s" then .ok 0
  else if s = "-5s" then .ok (-5000000000)
  else if s = "1s" then .ok 1000000000
  else if s = "30s" then .ok 30000000000
  else if s = "1m" then .ok 60000000000
  else .error ("time: invalid duration " ++ quote s)

/-- A sample of `html.UnescapeString`: the entities `&amp;`, `&lt;` and `&gt;` are replaced
in one pass, all other text is kept. -/
def unescapeChars : List Char → List Char
  | [] => []
  | '&' :: 'a' :: 'm' :: 'p' :: ';' :: cs => '&' :: unescapeChars cs
  | '&' :: 'l' :: 't' :: ';' :: cs => '<' :: unescapeChars cs
  | '&' :: 'g' :: 't' :: ';' :: cs => '>' :: unescapeChars cs
  | c :: cs => c :: unescapeChars cs

/-- A sample of `html.UnescapeString` on strings. -/
def UnescapeString (s : String) : String := ⟨unescapeChars s.data⟩

/-- A sample of `time.Parse`: with the layout `time.UnixDate`, the reference time of
package `time` in UTC parses to its instant (63271811045 seconds after the zero instant),
and the first second of year 1 parses to the zero instant; the other texts used here are no
dates. -/
def Parse (layout value : String) : Except Error Time :=
  if layout = UnixDate ∧ value = "Mon Jan  2 15:04:05 UTC 2006" then
    .ok ⟨63271811045000000000⟩
  else if layout = UnixDate ∧ value = "Mon Jan  1 00:00:00 UTC 0001" then .ok ⟨0⟩
  else .error ("parsing time " ++ value ++ " as " ++ layout)

end Lib

/-- The feed document served at `http://x/feed`: text fields are entity-encoded twice, as
the spec describes. -/
def feedBody : String :=
  "<rss><channel><title>News &amp;amp; More</title><link>http://x</link>" ++
  "<description>All &amp;lt;new&amp;gt;</description>" ++
  "<item><title>A &amp;amp; B</title><link>http://x/1</link>" ++
  "<description>1 &amp;lt; 2</description>" ++
  "<pubDate>Mon Jan  2 15:04:05 UTC 2006</pubDate></item>" ++
  "<item><title>Second</title><link>http://x/2</link><description>two</description>" ++
  "<pubDate>not a date</pubDate></item>" ++
  "<item><title>Third</title><link>http://x/3</link><description>three</description>" ++
  "<pubDate>Mon Jan  1 00:00:00 UTC 0001</pubDate></item></channel></rss>"

/-- What `xml.Unmarshal` decodes `feedBody` to: one level of entities is resolved by the XML
decoder. -/
def feedDoc : RSSFeed :=
  { Channel :=
    { Title := "News &amp; More"
      Link := "http://x"
      Description := "All &lt;new&gt;"
      Item :=
        [ { Title := "A &amp; B", Link := "http://x/1", Description := "1 &lt; 2",
            PubDate := "Mon Jan  2 15:04:05 UTC 2006" },
          { Title := "Second", Link := "http://x/2", Description := "two",
            PubDate := "not a date" },
          { Title := "Third", Link := "http://x/3", Description := "three",
            PubDate := "Mon Jan  1 00:00:00 UTC 0001" } ] } }

/-- The feed document served at `http://x/dated`: one item with a date in the layout
`time.UnixDate` and one whose date text is no date. -/
def datedBody : String :=
  "<rss><channel><title>Dated</title><link>http://x</link><description>d</description>" ++
  "<item><title>First</title><link>http://x/a</link><description>one</description>" ++
  "<pubDate>Mon Jan  2 15:04:05 UTC 2006</pubDate></item>" ++
  "<item><title>Second</title><link>http://x/b</link><description>two</description>" ++
  "<pubDate>not a date</pubDate></item></channel></rss>"

/-- What `xml.Unmarshal` decodes `datedBody` to. -/
def datedDoc : RSSFeed :=
  { Channel :=
    { Title := "Dated"
      Link := "http://x"
      Description := "d"
      Item :=
        [ { Title := "First", Link := "http://x/a", Description := "one",
            PubDate := "Mon Jan  2 15:04:05 UTC 2006" },
          { Title := "Second", Link := "http://x/b", Description := "two",
            PubDate := "not a date" } ] } }

/-- The feed document served at `http://x/dup`: two items with the same link. -/
def dupBody : String :=
  "<rss><channel><title>Dup</title><link>http://x</link><description>d</description>" ++
  "<item><link>http://x/1</link></item><item><link>http://x/1</link></item>" ++
  "</channel></rss>"

/-- What `xml.Unmarshal` decodes `dupBody` to. -/
def dupDoc : RSSFeed :=
  { Channel :=
    { Title := "Dup"
      Link := "http://x"
      Description := "d"
      Item :=
        [ { Title := "", Link := "http://x/1", Description := "", PubDate := "" },
          { Title := "", Link := "http://x/1", Description := "", PubDate := "" } ] } }

/-- A concrete environment: three feeds are served, at `http://x/feed`, `http://x/dated` and
`http://x/dup`; `http://x/text` serves a body that is no XML; every other host is
unreachable; the URL `:` is rejected by `http.NewRequestWithContext`. The texts of the
request and transport errors stand for the texts of the library. The clock advances by one
second per reading from the reference time of package `time`. -/
def sampleEnv : Env :=
  { ParseDuration := Lib.ParseDuration
    Parse := Lib.Parse
    UnescapeString := Lib.UnescapeString
    Unmarshal := fun data =>
      if data = feedBody then .ok feedDoc
      else if data = datedBody then .ok datedDoc
      else if data = dupBody then .ok dupDoc
      else .error "EOF"
    NewRequest := fun url => if url = ":" then some "parse :: missing protocol scheme" else none
    Do := fun _ url =>
      if url = "http://x/feed" then .ok feedBody
      else if url = "http://x/dated" then .ok datedBody
      else if url = "http://x/dup" then .ok dupBody
      else if url = "http://x/text" then .ok "plain text"
      else .error ("Get " ++ url ++ ": dial tcp: no such host")
    ReadAll := fun body => .ok body
    Now := fun k => ⟨63271811045000000000 + 1000000000 * (k : Int)⟩
    New := fun k => ⟨k⟩ }

/-- A feed row with the given identity and URL that was never fetched. -/
def sampleFeed (id : Nat) (url : String) : Feed :=
  { ID := ⟨id⟩
    CreatedAt := Time.zero
    UpdatedAt := Time.zero
    Name := "feed"
    Url := url
    UserID := ⟨0⟩
    LastFetchedAt := none }

/-- The world at process start over a given store. -/
def World.start {σ : Type} (db : σ) : World σ :=
  { db := db, stdout := [], calls := [], clock := 0, uuids := 0, requests := 0 }

/-- The store with no feed and no post. -/
def emptyStore : Store := { feeds := [], posts := [] }

/-- Process start over a store holding the single feed `http://x/feed`. -/
def feedWorld : World Store :=
  World.start { feeds := [sampleFeed 7 "http://x/feed"], posts := [] }

/-- Process start over a store that holds the feed `http://x/feed` and already holds a post
with the link `http://x/2` of its second item. -/
def staleWorld : World Store :=
  World.start
    { feeds := [sampleFeed 7 "http://x/feed"]
      posts := [{ ID := ⟨99⟩, CreatedAt := Time.zero, UpdatedAt := Time.zero,
                  Title := ⟨"Second", true⟩, Url := "http://x/2",
                  Description := ⟨"two", true⟩, PublishedAt := Time.zero, FeedID := ⟨7⟩ }] }

/-- Process start over a store holding the single feed `http://x/dated`. -/
def datedWorld : World Store :=
  World.start { feeds := [sampleFeed 7 "http://x/dated"], posts := [] }

/-- Process start over a store holding the single feed `http://x/dup`. -/
def dupWorld : World Store :=
  World.start { feeds := [sampleFeed 7 "http://x/dup"], posts := [] }

/-- Process start over a store holding the single feed `http://x/text`, whose body is no
XML. -/
def textWorld : World Store :=
  World.start { feeds := [sampleFeed 7 "http://x/text"], posts := [] }

/-- Process start over a store holding the single feed `http://y/feed`, whose host is
unreachable. -/
def downWorld : World Store :=
  World.start { feeds := [sampleFeed 7 "http://y/feed"], posts := [] }

/-- What `fetchFeed` returns for `http://x/feed` in `sampleEnv`. -/
def fetchedDoc : RSSFeed :=
  { Channel := { feedDoc.Channel with Title := "News & More", Description := "All <new>" } }

/-- The store after `q.CreatePost` has been called on the records `ps`, one after the
other, starting from the store `s`. -/
def inserted {σ : Type} (q : Queries σ) (s : σ) (ps : List CreatePostParams) : σ :=
  ps.foldl (fun s p => (q.CreatePost s p).2) s

/-- The lines the ingestion loop prints when it is handed the items `items` and calls
`q.CreatePost` on the records `ps`, starting from the store `s`: for each item its title
line, followed by the error of its insert when the insert fails. -/
def ingestLines {σ : Type} (q : Queries σ) : σ → List RSSItem → List CreatePostParams →
    List String
  | s, item :: items, p :: ps =>
    ("- Title: " ++ item.Title) ::
      ((match (q.CreatePost s p).1 with
        | .error err => [err]
        | .ok _ => []) ++ ingestLines q (q.CreatePost s p).2 items ps)
  | _, _, _ => []

/-- Whether the publish-date text of an item fails to parse in the layout `time.UnixDate`. -/
def unparseable (env : Env) (item : RSSItem) : Bool :=
  match env.Parse UnixDate item.PubDate with
  | .ok _ => false
  | .error _ => true

/-! ## Lemmas on traces -/

set_option maxRecDepth 100000

section Lemmas

variable {σ : Type}

theorem selections_append (l₁ l₂ : List Call) :
    selections (l₁ ++ l₂) = selections l₁ + selections l₂ := by
  induction l₁ with
  | nil => simp [selections]
  | cons c cs ih => cases c <;> simp [selections, ih]; omega

theorem selections_map (ps : List CreatePostParams) :
    selections (ps.map Call.CreatePost) = 0 := by
  induction ps with
  | nil => rfl
  | cons p ps ih => simp [selections, ih]

/-- The result of `fetchFeed` depends on the world only through the number of requests
already sent. -/
theorem fetchFeed_fst_congr {τ : Type} (env : Env) (url : String) (w : World σ) (w' : World τ)
    (h : w.requests = w'.requests) :
    (fetchFeed env url w).1 = (fetchFeed env url w').1 := by
  unfold fetchFeed
  simp only [World.print, World.record, h]
  cases env.NewRequest url with
  | some e => rfl
  | none =>
    simp only []
    cases env.Do w'.requests url with
    | error e => rfl
    | ok body =>
      simp only []
      cases env.ReadAll body with
      | error e => rfl
      | ok data =>
        simp only []
        cases env.Unmarshal data with
        | error e => rfl
        | ok doc => rfl

/-- A fetch that succeeds prints its line and sends exactly one request. -/
theorem fetchFeed_snd_of_ok (env : Env) (url : String) (w : World σ)
    (h : (fetchFeed env url w).1.2 = none) :
    (fetchFeed env url w).2 =
      { w with stdout := w.stdout ++ ["Making request to " ++ url]
               calls := w.calls ++ [Call.Do url]
               requests := w.requests + 1 } := by
  unfold fetchFeed at h ⊢
  simp only [World.print, World.record] at h ⊢
  cases hr : env.NewRequest url with
  | some e => simp [hr] at h
  | none =>
    simp only [hr] at h ⊢
    cases hd : env.Do w.requests url with
    | error e => simp [hd] at h
    | ok body =>
      simp only [hd] at h ⊢
      cases hb : env.ReadAll body with
      | error e => simp [hb] at h
      | ok data =>
        simp only [hb] at h ⊢
        cases hx : env.Unmarshal data with
        | error e => simp [hx] at h
        | ok doc => rfl

/-- Whatever its result, a fetch leaves the store alone, sends at most one request and makes
no other call. -/
theorem fetchFeed_snd (env : Env) (url : String) (w : World σ) :
    ∃ reqs lines, (reqs = [] ∨ reqs = [Call.Do url]) ∧
      (lines = [] ∨ lines = ["Making request to " ++ url]) ∧
      (fetchFeed env url w).2 =
        { w with stdout := w.stdout ++ lines
                 calls := w.calls ++ reqs
                 requests := w.requests + reqs.length } := by
  unfold fetchFeed
  simp only [World.print, World.record]
  cases env.NewRequest url with
  | some e => exact ⟨[], [], Or.inl rfl, Or.inl rfl, by simp⟩
  | none =>
    refine ⟨[Call.Do url], ["Making request to " ++ url], Or.inr rfl, Or.inr rfl, ?_⟩
    simp only []
    cases env.Do w.requests url with
    | error e => rfl
    | ok body =>
      simp only []
      cases env.ReadAll body with
      | error e => rfl
      | ok data =>
        simp only []
        cases env.Unmarshal data with
        | error e => rfl
        | ok doc => rfl

/-- One round of the ingestion loop makes exactly one `CreatePost` attempt, built from the
item and the selected feed, and prints the title line followed by the error of the insert,
if any. -/
theorem scrapeFeeds.body_spec (env : Env) (q : Queries σ) (feed : Feed) (w : World σ)
    (item : RSSItem) :
    ∃ p : CreatePostParams,
      (p.Title, p.Url, p.Description, p.PublishedAt, p.FeedID) =
        ((⟨item.Title, true⟩ : NullString), item.Link,
          (⟨item.Description, true⟩ : NullString), publishedAtOf env item, feed.ID) ∧
      (scrapeFeeds.body env q feed w item).calls = w.calls ++ [Call.CreatePost p] ∧
      (scrapeFeeds.body env q feed w item).db = (q.CreatePost w.db p).2 ∧
      (scrapeFeeds.body env q feed w item).stdout =
        w.stdout ++ (("- Title: " ++ item.Title) ::
          match (q.CreatePost w.db p).1 with
          | .error err => [err]
          | .ok _ => []) := by
  refine ⟨⟨env.New w.uuids, env.Now w.clock, env.Now (w.clock + 1), ⟨item.Title, true⟩,
    item.Link, ⟨item.Description, true⟩, publishedAtOf env item, feed.ID⟩, rfl, ?_⟩
  unfold scrapeFeeds.body
  simp only [World.print, World.record, World.now, World.newUUID]
  split <;> rename_i h <;> simp [h]

/-- The ingestion loop makes one `CreatePost` attempt per item, in document order, and no
other call; the store it leaves is the one `q.CreatePost` returned for these records, called
one after the other, and it prints the title of each item and the error of each failed
insert. -/
theorem scrapeFeeds.loop_calls (env : Env) (q : Queries σ) (feed : Feed)
    (items : List RSSItem) (w : World σ) :
    ∃ ps : List CreatePostParams,
      (items.foldl (scrapeFeeds.body env q feed) w).calls = w.calls ++ ps.map Call.CreatePost ∧
      ps.map (fun p => (p.Title, p.Url, p.Description, p.PublishedAt, p.FeedID)) =
        (items.map fun item =>
          ((⟨item.Title, true⟩ : NullString), item.Link,
            (⟨item.Description, true⟩ : NullString), publishedAtOf env item, feed.ID)) ∧
      (items.foldl (scrapeFeeds.body env q feed) w).db = inserted q w.db ps ∧
      (items.foldl (scrapeFeeds.body env q feed) w).stdout =
        w.stdout ++ ingestLines q w.db items ps := by
  induction items generalizing w with
  | nil => exact ⟨[], by simp, rfl, rfl, by simp [ingestLines]⟩
  | cons item rest ih =>
    obtain ⟨p, hp, hcalls, hdb, hout⟩ := scrapeFeeds.body_spec env q feed w item
    obtain ⟨ps, hps, hmap, hins, hlines⟩ := ih (scrapeFeeds.body env q feed w item)
    refine ⟨p :: ps, ?_, ?_, ?_, ?_⟩
    · simp [List.foldl_cons, hps, hcalls]
    · simp only [List.map_cons, hmap, hp]
    · rw [List.foldl_cons, hins, hdb]
      rfl
    · rw [List.foldl_cons, hlines, hout, hdb]
      simp [ingestLines]

/-- The world in which the ingestion loop of a cycle starts, when selection, marking and
fetching succeeded. -/
theorem scrapeFeeds_of_ok (env : Env) (q : Queries σ) (w : World σ) (feed : Feed)
    (doc : RSSFeed)
    (hsel : q.GetNextFeedToFetch w.db = .ok feed)
    (hmark : (q.MarkFeedFetched w.db ⟨feed.ID, env.Now w.clock⟩).1 = none)
    (hfetch : (fetchFeed env feed.Url w).1 = (doc, none)) :
    scrapeFeeds env q w =
      (none, (doc.Channel.Item.foldl (scrapeFeeds.body env q feed)
        { db := (q.MarkFeedFetched w.db ⟨feed.ID, env.Now w.clock⟩).2
          stdout := w.stdout ++ ["Making request to " ++ feed.Url]
          calls := w.calls ++ [Call.GetNextFeedToFetch,
            Call.MarkFeedFetched ⟨feed.ID, env.Now w.clock⟩, Call.Do feed.Url]
          clock := w.clock + 1
          uuids := w.uuids
          requests := w.requests + 1 }).print separator) := by
  have hf : ∀ w' : World σ, w'.requests = w.requests →
      (fetchFeed env feed.Url w').1 = (doc, none) := fun w' h =>
    (fetchFeed_fst_congr env feed.Url w' w h).trans hfetch
  unfold scrapeFeeds
  simp only [hsel, World.record, World.now, hmark]
  rw [fetchFeed_snd_of_ok, hf]
  · simp
  · rfl
  · rw [hf]
    rfl

/-- A cycle whose fetch fails stops right after the fetch. -/
theorem scrapeFeeds_of_fetch_failed (env : Env) (q : Queries σ) (w : World σ) (feed : Feed)
    (err : Error)
    (hsel : q.GetNextFeedToFetch w.db = .ok feed)
    (hmark : (q.MarkFeedFetched w.db ⟨feed.ID, env.Now w.clock⟩).1 = none)
    (hfetch : (fetchFeed env feed.Url w).1.2 = some err) :
    ∃ reqs lines, (reqs = [] ∨ reqs = [Call.Do feed.Url]) ∧
      (lines = [] ∨ lines = ["Making request to " ++ feed.Url]) ∧
      scrapeFeeds env q w =
        (some err,
          { db := (q.MarkFeedFetched w.db ⟨feed.ID, env.Now w.clock⟩).2
            stdout := w.stdout ++ lines
            calls := w.calls ++ [Call.GetNextFeedToFetch,
              Call.MarkFeedFetched ⟨feed.ID, env.Now w.clock⟩] ++ reqs
            clock := w.clock + 1
            uuids := w.uuids
            requests := w.requests + reqs.length }) := by
  have hf : ∀ w' : World σ, w'.requests = w.requests →
      (fetchFeed env feed.Url w').1.2 = some err := fun w' h => by
    rw [fetchFeed_fst_congr env feed.Url w' w h, hfetch]
  unfold scrapeFeeds
  simp only [hsel, World.record, World.now, hmark]
  rw [hf]
  · simp only []
    obtain ⟨reqs, lines, hreqs, hlines, hw⟩ := fetchFeed_snd env feed.Url
      ({ db := (q.MarkFeedFetched w.db ⟨feed.ID, env.Now w.clock⟩).2
         stdout := w.stdout
         calls := w.calls ++ [Call.GetNextFeedToFetch] ++
           [Call.MarkFeedFetched ⟨feed.ID, env.Now w.clock⟩]
         clock := w.clock + 1
         uuids := w.uuids
         requests := w.requests } : World σ)
    refine ⟨reqs, lines, hreqs, hlines, ?_⟩
    rw [hw]
    simp
  · rfl

/-- Every cycle makes exactly one selection, as its first call. -/
theorem scrapeFeeds_calls (env : Env) (q : Queries σ) (w : World σ) :
    ∃ rest, (scrapeFeeds env q w).2.calls = w.calls ++ Call.GetNextFeedToFetch :: rest ∧
      selections rest = 0 := by
  cases hsel : q.GetNextFeedToFetch w.db with
  | error e =>
    refine ⟨[], ?_, rfl⟩
    unfold scrapeFeeds
    simp [hsel, World.record]
  | ok feed =>
    cases hmark : (q.MarkFeedFetched w.db ⟨feed.ID, env.Now w.clock⟩).1 with
    | some e =>
      refine ⟨[Call.MarkFeedFetched ⟨feed.ID, env.Now w.clock⟩], ?_, rfl⟩
      unfold scrapeFeeds
      simp [hsel, World.record, World.now, hmark]
    | none =>
      cases hfetch : (fetchFeed env feed.Url w).1.2 with
      | some e =>
        obtain ⟨reqs, lines, hreqs, -, hw⟩ :=
          scrapeFeeds_of_fetch_failed env q w feed e hsel hmark hfetch
        refine ⟨Call.MarkFeedFetched ⟨feed.ID, env.Now w.clock⟩ :: reqs, ?_, ?_⟩
        · rw [hw]; simp
        · rcases hreqs with h | h <;> simp [h, selections]
      | none =>
        have hw := scrapeFeeds_of_ok env q w feed (fetchFeed env feed.Url w).1.1 hsel hmark
          (by rw [← hfetch])
        obtain ⟨ps, hps, -⟩ := scrapeFeeds.loop_calls env q feed
          (fetchFeed env feed.Url w).1.1.Channel.Item
          ({ db := (q.MarkFeedFetched w.db ⟨feed.ID, env.Now w.clock⟩).2
             stdout := w.stdout ++ ["Making request to " ++ feed.Url]
             calls := w.calls ++ [Call.GetNextFeedToFetch,
               Call.MarkFeedFetched ⟨feed.ID, env.Now w.clock⟩, Call.Do feed.Url]
             clock := w.clock + 1
             uuids := w.uuids
             requests := w.requests + 1 } : World σ)
        refine ⟨[Call.MarkFeedFetched ⟨feed.ID, env.Now w.clock⟩, Call.Do feed.Url] ++
          ps.map Call.CreatePost, ?_, ?_⟩
        · rw [hw]
          simp only [World.print, hps]
          simp
        · simp [selections_append, selections_map, selections]


/-- The loop of `handlerAgg` starts one cycle at once and one more per tick. -/
theorem handlerAgg.loop_selections (env : Env) (q : Queries σ) (ticks : Nat) (w : World σ) :
    selections (handlerAgg.loop env q ticks w).calls = selections w.calls + (ticks + 1) := by
  induction ticks with
  | zero =>
    obtain ⟨rest, hrest, h0⟩ := scrapeFeeds_calls env q w
    simp [handlerAgg.loop, hrest, selections_append, selections, h0]
  | succ n ih =>
    obtain ⟨rest, hrest, h0⟩ := scrapeFeeds_calls env q (handlerAgg.loop env q n w)
    simp only [handlerAgg.loop, hrest, selections_append, selections, h0, ih]
    omega

/-- A title line is never the `DuplicateURL` message. -/
theorem titleLine_ne (t : String) : "- Title: " ++ t ≠ duplicateURL := by
  intro h
  have h' := congrArg String.data h
  simp [duplicateURL, String.data_append] at h'

/-- A request line is never the `DuplicateURL` message. -/
theorem requestLine_ne (t : String) : "Making request to " ++ t ≠ duplicateURL := by
  intro h
  have h' := congrArg String.data h
  simp [duplicateURL, String.data_append] at h'

/-- The separator is not the `DuplicateURL` message. -/
theorem separator_ne : separator ≠ duplicateURL := by decide

/-- Against the store of the spec, the ingestion loop appends one post for each link that is
not stored yet, prints one `DuplicateURL` line for every other item, and changes nothing
else in the store. -/
theorem specStore_loop (env : Env) (feed : Feed) (items : List RSSItem) (w : World Store) :
    ∃ (added : List Post) (lines : List String),
      (items.foldl (scrapeFeeds.body env specStore feed) w).db.posts = w.db.posts ++ added ∧
      (items.foldl (scrapeFeeds.body env specStore feed) w).stdout = w.stdout ++ lines ∧
      (added.map Post.Url).Nodup ∧
      (∀ u, u ∈ added.map Post.Url ↔
        u ∈ items.map RSSItem.Link ∧ u ∉ w.db.posts.map Post.Url) ∧
      lines.count duplicateURL + added.length = items.length := by
  induction items generalizing w with
  | nil => exact ⟨[], [], by simp, by simp, by simp, by simp, by simp⟩
  | cons item rest ih =>
    obtain ⟨p, hp, -, hdb, hout⟩ := scrapeFeeds.body_spec env specStore feed w item
    have hurl : p.Url = item.Link := by simpa using congrArg (fun t => t.2.1) hp
    obtain ⟨added, lines, hposts, hstdout, hnodup, hmem, hcount⟩ :=
      ih (scrapeFeeds.body env specStore feed w item)
    rw [List.foldl_cons]
    by_cases hdup : p.Url ∈ w.db.posts.map Post.Url
    · have hc : specStore.CreatePost w.db p = (.error duplicateURL, w.db) := by
        simp only [specStore, Store.CreatePost, hdup, if_true]
      rw [hc] at hdb hout
      refine ⟨added, ("- Title: " ++ item.Title) :: duplicateURL :: lines, ?_, ?_, hnodup,
        ?_, ?_⟩
      · rw [hposts, hdb]
      · rw [hstdout, hout]
        simp
      · intro u
        rw [hmem u, hdb, List.map_cons, List.mem_cons]
        constructor
        · rintro ⟨h1, h2⟩
          exact ⟨Or.inr h1, h2⟩
        · rintro ⟨h1 | h1, h2⟩
          · exact absurd (by rw [h1, ← hurl]; exact hdup) h2
          · exact ⟨h1, h2⟩
      · rw [List.count_cons_of_ne (titleLine_ne item.Title).symm, List.count_cons_self,
          List.length_cons]
        omega
    · have hc : specStore.CreatePost w.db p =
          (.ok (Post.ofParams p), { w.db with posts := w.db.posts ++ [Post.ofParams p] }) := by
        simp only [specStore, Store.CreatePost, hdup, if_false]
      rw [hc] at hdb hout
      have hpu : (Post.ofParams p).Url = item.Link := hurl
      have hold : ∀ u, u ∈ List.map Post.Url (scrapeFeeds.body env specStore feed w item).db.posts ↔
          u ∈ w.db.posts.map Post.Url ∨ u = item.Link := by
        intro u
        rw [hdb]
        simp [hpu]
      refine ⟨Post.ofParams p :: added, ("- Title: " ++ item.Title) :: lines, ?_, ?_, ?_, ?_,
        ?_⟩
      · rw [hposts, hdb]
        simp
      · rw [hstdout, hout]
        simp
      · rw [List.map_cons, List.nodup_cons]
        refine ⟨?_, hnodup⟩
        rw [hmem, hold, hpu]
        simp
      · intro u
        rw [List.map_cons, List.mem_cons, hmem u, hold u, hpu, List.map_cons, List.mem_cons]
        constructor
        · rintro (h | ⟨h1, h2⟩)
          · refine ⟨Or.inl h, ?_⟩
            rw [h, ← hurl]
            exact hdup
          · exact ⟨Or.inr h1, fun h => h2 (Or.inl h)⟩
        · rintro ⟨h1 | h1, h2⟩
          · exact Or.inl h1
          · by_cases hu : u = item.Link
            · exact Or.inl hu
            · exact Or.inr ⟨h1, fun h => h.elim h2 hu⟩
      · rw [List.count_cons_of_ne (titleLine_ne item.Title).symm, List.length_cons,
          List.length_cons]
        omega

end Lemmas

/-! ## The scrape cycle -/

section Cycle

variable {σ : Type}

/-- C3: in a cycle whose selection, mark-fetched and fetch succeed, whatever the inserts
return (the store operations `q` are arbitrary), `scrapeFeeds` returns no error and makes
exactly one `CreatePost` attempt per item of the fetched document, in document order: its
calls are the selection, the marking, the request and then the attempts `ps`, whose `Url`s
are the links of the items; the store it leaves is the one `q.CreatePost` returned after
being called on each record of `ps` in turn, starting from the store `MarkFeedFetched` left
(a failed insert does not stop the calls that follow); and the console shows the request
line, the title of each item followed by the error of its insert if it failed, and the
separator. The hypothesis `hfetch` reads the result of the fetch in the starting world: that
result depends on the world only through the number of requests sent so far
(`fetchFeed_fst_congr`), which selection and marking do not change. -/
theorem scrapeFeeds_attempts_every_item (env : Env) (q : Queries σ) (w : World σ)
    (feed : Feed) (doc : RSSFeed)
    (hsel : q.GetNextFeedToFetch w.db = .ok feed)
    (hmark : (q.MarkFeedFetched w.db ⟨feed.ID, env.Now w.clock⟩).1 = none)
    (hfetch : (fetchFeed env feed.Url w).1 = (doc, none)) :
    (scrapeFeeds env q w).1 = none ∧
    ∃ ps : List CreatePostParams,
      (scrapeFeeds env q w).2.calls =
        w.calls ++ [Call.GetNextFeedToFetch,
          Call.MarkFeedFetched ⟨feed.ID, env.Now w.clock⟩, Call.Do feed.Url] ++
          ps.map Call.CreatePost ∧
      ps.length = doc.Channel.Item.length ∧
      ps.map CreatePostParams.Url = doc.Channel.Item.map RSSItem.Link ∧
      (scrapeFeeds env q w).2.db =
        inserted q (q.MarkFeedFetched w.db ⟨feed.ID, env.Now w.clock⟩).2 ps ∧
      (scrapeFeeds env q w).2.stdout =
        w.stdout ++ ["Making request to " ++ feed.Url] ++
          ingestLines q (q.MarkFeedFetched w.db ⟨feed.ID, env.Now w.clock⟩).2
            doc.Channel.Item ps ++ [separator] := by
  rw [scrapeFeeds_of_ok env q w feed doc hsel hmark hfetch]
  refine ⟨rfl, ?_⟩
  obtain ⟨ps, hps, hmap, hins, hlines⟩ := scrapeFeeds.loop_calls env q feed doc.Channel.Item
    ({ db := (q.MarkFeedFetched w.db ⟨feed.ID, env.Now w.clock⟩).2
       stdout := w.stdout ++ ["Making request to " ++ feed.Url]
       calls := w.calls ++ [Call.GetNextFeedToFetch,
         Call.MarkFeedFetched ⟨feed.ID, env.Now w.clock⟩, Call.Do feed.Url]
       clock := w.clock + 1
       uuids := w.uuids
       requests := w.requests + 1 } : World σ)
  refine ⟨ps, ?_, ?_, ?_, ?_, ?_⟩
  · simp only [World.print, hps]
  · simpa using congrArg List.length hmap
  · simpa [List.map_map, Function.comp_def] using congrArg (List.map fun t => t.2.1) hmap
  · simp only [World.print, hins]
  · simp only [World.print, hlines]

/-- C3, on the sample feed and a store that already holds the link of the second item: the
insert of the second item fails, and the third item is attempted and stored all the same. -/
theorem scrapeFeeds_attempts_every_item_witness :
    ((scrapeFeeds sampleEnv specStore staleWorld).1 = none ∧
    ∃ ps : List CreatePostParams,
      (scrapeFeeds sampleEnv specStore staleWorld).2.calls =
        staleWorld.calls ++ [Call.GetNextFeedToFetch,
          Call.MarkFeedFetched
            ⟨(sampleFeed 7 "http://x/feed").ID, sampleEnv.Now staleWorld.clock⟩,
          Call.Do (sampleFeed 7 "http://x/feed").Url] ++
          ps.map Call.CreatePost ∧
      ps.length = fetchedDoc.Channel.Item.length ∧
      ps.map CreatePostParams.Url = fetchedDoc.Channel.Item.map RSSItem.Link ∧
      (scrapeFeeds sampleEnv specStore staleWorld).2.db =
        inserted specStore (specStore.MarkFeedFetched staleWorld.db
          ⟨(sampleFeed 7 "http://x/feed").ID, sampleEnv.Now staleWorld.clock⟩).2 ps ∧
      (scrapeFeeds sampleEnv specStore staleWorld).2.stdout =
        staleWorld.stdout ++ ["Making request to " ++ (sampleFeed 7 "http://x/feed").Url] ++
          ingestLines specStore (specStore.MarkFeedFetched staleWorld.db
            ⟨(sampleFeed 7 "http://x/feed").ID, sampleEnv.Now staleWorld.clock⟩).2
            fetchedDoc.Channel.Item ps ++ [separator]) ∧
    (scrapeFeeds sampleEnv specStore staleWorld).2.db.posts.map Post.Url =
      ["http://x/2", "http://x/1", "http://x/3"] ∧
    (scrapeFeeds sampleEnv specStore staleWorld).2.stdout =
      ["Making request to http://x/feed", "- Title: A &amp; B", "- Title: Second",
        "DuplicateURL", "- Title: Third", separator] :=
  ⟨scrapeFeeds_attempts_every_item sampleEnv specStore staleWorld
    (sampleFeed 7 "http://x/feed") fetchedDoc rfl rfl rfl, by decide, by decide⟩

/-- C5: when `GetNextFeedToFetch` fails, `scrapeFeeds` returns that error and the cycle
consists of the selection call alone: no `MarkFeedFetched`, no request, no `CreatePost`;
the store and the console are as before. -/
theorem scrapeFeeds_selection_failed (env : Env) (q : Queries σ) (w : World σ) (err : Error)
    (hsel : q.GetNextFeedToFetch w.db = .error err) :
    scrapeFeeds env q w =
      (some err, { w with calls := w.calls ++ [Call.GetNextFeedToFetch] }) := by
  unfold scrapeFeeds
  simp [hsel, World.record]

/-- C5, on a store without feeds. -/
theorem scrapeFeeds_selection_failed_witness :
    scrapeFeeds sampleEnv specStore (World.start emptyStore) =
      (some "sql: no rows in result set",
        { World.start emptyStore with
            calls := (World.start emptyStore).calls ++ [Call.GetNextFeedToFetch] }) :=
  scrapeFeeds_selection_failed sampleEnv specStore (World.start emptyStore)
    "sql: no rows in result set" rfl

/-- C6: in a cycle whose selection and marking succeed and whose fetch fails with `err`
(request construction, transport, reading or decoding), `scrapeFeeds` returns `err`; its
calls are the selection, then one `MarkFeedFetched` for the selected feed, then at most one
request to the feed URL, and no `CreatePost`; the store is the one `MarkFeedFetched` left. -/
theorem scrapeFeeds_fetch_failed (env : Env) (q : Queries σ) (w : World σ) (feed : Feed)
    (err : Error)
    (hsel : q.GetNextFeedToFetch w.db = .ok feed)
    (hmark : (q.MarkFeedFetched w.db ⟨feed.ID, env.Now w.clock⟩).1 = none)
    (hfetch : (fetchFeed env feed.Url w).1.2 = some err) :
    (scrapeFeeds env q w).1 = some err ∧
    (scrapeFeeds env q w).2.db = (q.MarkFeedFetched w.db ⟨feed.ID, env.Now w.clock⟩).2 ∧
    ∃ reqs, (reqs = [] ∨ reqs = [Call.Do feed.Url]) ∧
      (scrapeFeeds env q w).2.calls =
        w.calls ++ [Call.GetNextFeedToFetch,
          Call.MarkFeedFetched ⟨feed.ID, env.Now w.clock⟩] ++ reqs := by
  obtain ⟨reqs, lines, hreqs, -, hw⟩ :=
    scrapeFeeds_of_fetch_failed env q w feed err hsel hmark hfetch
  rw [hw]
  exact ⟨rfl, rfl, reqs, hreqs, rfl⟩

/-- C6, on a feed whose body is no XML: the feed is marked fetched, one request is sent, the
decoding error is returned. -/
theorem scrapeFeeds_fetch_failed_witness :
    (scrapeFeeds sampleEnv specStore textWorld).1 = some "EOF" ∧
    (scrapeFeeds sampleEnv specStore textWorld).2.db =
      (specStore.MarkFeedFetched textWorld.db
        ⟨(sampleFeed 7 "http://x/text").ID, sampleEnv.Now textWorld.clock⟩).2 ∧
    ∃ reqs, (reqs = [] ∨ reqs = [Call.Do (sampleFeed 7 "http://x/text").Url]) ∧
      (scrapeFeeds sampleEnv specStore textWorld).2.calls =
        textWorld.calls ++ [Call.GetNextFeedToFetch,
          Call.MarkFeedFetched
            ⟨(sampleFeed 7 "http://x/text").ID, sampleEnv.Now textWorld.clock⟩] ++ reqs :=
  scrapeFeeds_fetch_failed sampleEnv specStore textWorld (sampleFeed 7 "http://x/text")
    "EOF" rfl rfl rfl

/-- C10: in a cycle whose selection, mark-fetched and fetch succeed, the records `ps` that
`scrapeFeeds` passes to `CreatePost`, one per item and in document order, have `Title` and
`Description` valid and holding the title and description of the item, `Url` equal to its
link, and `FeedID` equal to the ID of the feed that was selected and marked fetched in this
cycle. These are the records the store receives: the store the cycle leaves is the one
`q.CreatePost` returned after being called on each record of `ps` in turn, starting from the
store `MarkFeedFetched` left. -/
theorem scrapeFeeds_post_fields (env : Env) (q : Queries σ) (w : World σ)
    (feed : Feed) (doc : RSSFeed)
    (hsel : q.GetNextFeedToFetch w.db = .ok feed)
    (hmark : (q.MarkFeedFetched w.db ⟨feed.ID, env.Now w.clock⟩).1 = none)
    (hfetch : (fetchFeed env feed.Url w).1 = (doc, none)) :
    ∃ ps : List CreatePostParams,
      (scrapeFeeds env q w).2.calls =
        w.calls ++ [Call.GetNextFeedToFetch,
          Call.MarkFeedFetched ⟨feed.ID, env.Now w.clock⟩, Call.Do feed.Url] ++
          ps.map Call.CreatePost ∧
      (scrapeFeeds env q w).2.db =
        inserted q (q.MarkFeedFetched w.db ⟨feed.ID, env.Now w.clock⟩).2 ps ∧
      ps.map (fun p => (p.Title, p.Description, p.Url, p.FeedID)) =
        doc.Channel.Item.map fun item =>
          ((⟨item.Title, true⟩ : NullString), (⟨item.Description, true⟩ : NullString),
            item.Link, feed.ID) := by
  rw [scrapeFeeds_of_ok env q w feed doc hsel hmark hfetch]
  obtain ⟨ps, hps, hmap, hins, -⟩ := scrapeFeeds.loop_calls env q feed doc.Channel.Item
    ({ db := (q.MarkFeedFetched w.db ⟨feed.ID, env.Now w.clock⟩).2
       stdout := w.stdout ++ ["Making request to " ++ feed.Url]
       calls := w.calls ++ [Call.GetNextFeedToFetch,
         Call.MarkFeedFetched ⟨feed.ID, env.Now w.clock⟩, Call.Do feed.Url]
       clock := w.clock + 1
       uuids := w.uuids
       requests := w.requests + 1 } : World σ)
  refine ⟨ps, ?_, ?_, ?_⟩
  · simp only [World.print, hps]
  · simp only [World.print, hins]
  · simpa [List.map_map, Function.comp_def] using
      congrArg (List.map fun t => (t.1, t.2.2.1, t.2.1, t.2.2.2.2)) hmap

/-- C10, on the sample feed: the three posts the store of the spec holds after the cycle
carry the fields of the three items and the ID of the selected feed. -/
theorem scrapeFeeds_post_fields_witness :
    (∃ ps : List CreatePostParams,
      (scrapeFeeds sampleEnv specStore feedWorld).2.calls =
        feedWorld.calls ++ [Call.GetNextFeedToFetch,
          Call.MarkFeedFetched ⟨(sampleFeed 7 "http://x/feed").ID, sampleEnv.Now feedWorld.clock⟩,
          Call.Do (sampleFeed 7 "http://x/feed").Url] ++
          ps.map Call.CreatePost ∧
      (scrapeFeeds sampleEnv specStore feedWorld).2.db =
        inserted specStore (specStore.MarkFeedFetched feedWorld.db
          ⟨(sampleFeed 7 "http://x/feed").ID, sampleEnv.Now feedWorld.clock⟩).2 ps ∧
      ps.map (fun p => (p.Title, p.Description, p.Url, p.FeedID)) =
        fetchedDoc.Channel.Item.map fun item =>
          ((⟨item.Title, true⟩ : NullString), (⟨item.Description, true⟩ : NullString),
            item.Link, (sampleFeed 7 "http://x/feed").ID)) ∧
    (scrapeFeeds sampleEnv specStore feedWorld).2.db.posts.map
        (fun p => (p.Title, p.Description, p.Url, p.FeedID)) =
      [((⟨"A &amp; B", true⟩ : NullString), (⟨"1 &lt; 2", true⟩ : NullString),
          "http://x/1", (⟨7⟩ : UUID)),
        (⟨"Second", true⟩, ⟨"two", true⟩, "http://x/2", ⟨7⟩),
        (⟨"Third", true⟩, ⟨"three", true⟩, "http://x/3", ⟨7⟩)] :=
  ⟨scrapeFeeds_post_fields sampleEnv specStore feedWorld
    (sampleFeed 7 "http://x/feed") fetchedDoc rfl rfl rfl, by decide⟩

/-- C4 (amended): in a cycle whose selection, mark-fetched and fetch succeed there is one
`CreatePost` attempt per item, in document order, and the `PublishedAt` of the record passed
is the parsed time when the publish-date text parses in the layout `time.UnixDate` and the
zero `Time` when it does not. These are the records the store receives: the store the cycle
leaves is the one `q.CreatePost` returned after being called on each record of `ps` in turn.
So with `N` items of which `M` are unparseable there are `N` attempts and at least those `M`
carry the zero timestamp; they are exactly `M` when no publish-date text of the document
parses to the zero instant itself. -/
theorem scrapeFeeds_publishedAt (env : Env) (q : Queries σ) (w : World σ)
    (feed : Feed) (doc : RSSFeed)
    (hsel : q.GetNextFeedToFetch w.db = .ok feed)
    (hmark : (q.MarkFeedFetched w.db ⟨feed.ID, env.Now w.clock⟩).1 = none)
    (hfetch : (fetchFeed env feed.Url w).1 = (doc, none)) :
    ∃ ps : List CreatePostParams,
      (scrapeFeeds env q w).2.calls =
        w.calls ++ [Call.GetNextFeedToFetch,
          Call.MarkFeedFetched ⟨feed.ID, env.Now w.clock⟩, Call.Do feed.Url] ++
          ps.map Call.CreatePost ∧
      (scrapeFeeds env q w).2.db =
        inserted q (q.MarkFeedFetched w.db ⟨feed.ID, env.Now w.clock⟩).2 ps ∧
      ps.length = doc.Channel.Item.length ∧
      ps.map CreatePostParams.PublishedAt =
        (doc.Channel.Item.map fun item =>
          match env.Parse UnixDate item.PubDate with
          | .ok t => t
          | .error _ => Time.zero) ∧
      doc.Channel.Item.countP (unparseable env) ≤
        ps.countP (fun p => decide (p.PublishedAt = Time.zero)) ∧
      ((∀ item ∈ doc.Channel.Item, env.Parse UnixDate item.PubDate ≠ .ok Time.zero) →
        ps.countP (fun p => decide (p.PublishedAt = Time.zero)) =
          doc.Channel.Item.countP (unparseable env)) := by
  rw [scrapeFeeds_of_ok env q w feed doc hsel hmark hfetch]
  obtain ⟨ps, hps, hmap, hins, -⟩ := scrapeFeeds.loop_calls env q feed doc.Channel.Item
    ({ db := (q.MarkFeedFetched w.db ⟨feed.ID, env.Now w.clock⟩).2
       stdout := w.stdout ++ ["Making request to " ++ feed.Url]
       calls := w.calls ++ [Call.GetNextFeedToFetch,
         Call.MarkFeedFetched ⟨feed.ID, env.Now w.clock⟩, Call.Do feed.Url]
       clock := w.clock + 1
       uuids := w.uuids
       requests := w.requests + 1 } : World σ)
  have hpub : ps.map CreatePostParams.PublishedAt =
      doc.Channel.Item.map (publishedAtOf env) := by
    simpa [List.map_map, Function.comp_def] using
      congrArg (List.map fun t => t.2.2.2.1) hmap
  have hcount : ps.countP (fun p => decide (p.PublishedAt = Time.zero)) =
      doc.Channel.Item.countP (fun item => decide (publishedAtOf env item = Time.zero)) := by
    have h1 := congrArg (List.countP fun t => decide (t = Time.zero)) hpub
    simpa [List.countP_map, Function.comp_def] using h1
  refine ⟨ps, ?_, ?_, ?_, hpub, ?_, ?_⟩
  · simp only [World.print, hps]
  · simp only [World.print, hins]
  · simpa using congrArg List.length hmap
  · rw [hcount]
    apply List.countP_mono_left
    intro item _ hitem
    unfold unparseable at hitem
    unfold publishedAtOf
    cases hparse : env.Parse UnixDate item.PubDate with
    | ok t => simp [hparse] at hitem
    | error e => simp
  · intro hne
    rw [hcount]
    apply List.countP_congr
    intro item hitem
    have hz := hne item hitem
    unfold unparseable publishedAtOf
    cases hparse : env.Parse UnixDate item.PubDate with
    | ok t =>
      have ht : t ≠ Time.zero := fun h => hz (by rw [hparse, h])
      simp [ht]
    | error e => simp

/-- C4 (amended), on the feed `http://x/dated`: the first item has a date in the layout,
the second has not, and no date parses to the zero instant. The two posts stored carry the
parsed time and the zero time, so exactly the one attempt for the unparseable date carries
the zero timestamp. -/
theorem scrapeFeeds_publishedAt_witness :
    (∃ ps : List CreatePostParams,
      (scrapeFeeds sampleEnv specStore datedWorld).2.calls =
        datedWorld.calls ++ [Call.GetNextFeedToFetch,
          Call.MarkFeedFetched
            ⟨(sampleFeed 7 "http://x/dated").ID, sampleEnv.Now datedWorld.clock⟩,
          Call.Do (sampleFeed 7 "http://x/dated").Url] ++
          ps.map Call.CreatePost ∧
      (scrapeFeeds sampleEnv specStore datedWorld).2.db =
        inserted specStore (specStore.MarkFeedFetched datedWorld.db
          ⟨(sampleFeed 7 "http://x/dated").ID, sampleEnv.Now datedWorld.clock⟩).2 ps ∧
      ps.length = datedDoc.Channel.Item.length ∧
      ps.map CreatePostParams.PublishedAt =
        (datedDoc.Channel.Item.map fun item =>
          match sampleEnv.Parse UnixDate item.PubDate with
          | .ok t => t
          | .error _ => Time.zero) ∧
      datedDoc.Channel.Item.countP (unparseable sampleEnv) ≤
        ps.countP (fun p => decide (p.PublishedAt = Time.zero)) ∧
      ((∀ item ∈ datedDoc.Channel.Item,
          sampleEnv.Parse UnixDate item.PubDate ≠ .ok Time.zero) →
        ps.countP (fun p => decide (p.PublishedAt = Time.zero)) =
          datedDoc.Channel.Item.countP (unparseable sampleEnv))) ∧
    (∀ item ∈ datedDoc.Channel.Item,
      sampleEnv.Parse UnixDate item.PubDate ≠ .ok Time.zero) ∧
    datedDoc.Channel.Item.map (unparseable sampleEnv) = [false, true] ∧
    (scrapeFeeds sampleEnv specStore datedWorld).2.db.posts.map Post.PublishedAt =
      [(⟨63271811045000000000⟩ : Time), Time.zero] :=
  ⟨scrapeFeeds_publishedAt sampleEnv specStore datedWorld
      (sampleFeed 7 "http://x/dated") datedDoc rfl rfl rfl,
    by
      intro item hitem
      simp only [datedDoc, List.mem_cons, List.mem_singleton, List.not_mem_nil, or_false]
        at hitem
      rcases hitem with rfl | rfl <;> simp [sampleEnv, Lib.Parse, UnixDate, Time.zero],
    by decide, by decide⟩

/-- C4 as stated fails on the sample feed: of its three items only the second has an
unparseable date, but two of the three posts the store holds after the cycle carry the zero
timestamp, because the date of the third item, `Mon Jan  1 00:00:00 UTC 0001`, parses to
the zero instant. -/
theorem scrapeFeeds_publishedAt_counterexample :
    fetchedDoc.Channel.Item.map (unparseable sampleEnv) = [false, true, false] ∧
    (scrapeFeeds sampleEnv specStore feedWorld).2.db.posts.map
        (fun p => decide (p.PublishedAt = Time.zero)) = [false, true, true] ∧
    ¬ ((scrapeFeeds sampleEnv specStore feedWorld).2.db.posts.countP
        (fun p => decide (p.PublishedAt = Time.zero)) =
      fetchedDoc.Channel.Item.countP (unparseable sampleEnv)) := by
  decide

/-- C9: against the store of the spec, a cycle whose selection and fetch succeed appends
posts to the stored ones such that every URL occurs among the new posts once if it is the
link of an item and was not stored before, and not at all otherwise; the number of
`DuplicateURL` lines printed is the number of items that added no post. -/
theorem scrapeFeeds_stores_each_url_once (env : Env) (w : World Store) (feed : Feed)
    (doc : RSSFeed)
    (hsel : specStore.GetNextFeedToFetch w.db = .ok feed)
    (hfetch : (fetchFeed env feed.Url w).1 = (doc, none)) :
    ∃ (added : List Post) (lines : List String),
      (scrapeFeeds env specStore w).2.db.posts = w.db.posts ++ added ∧
      (scrapeFeeds env specStore w).2.stdout = w.stdout ++ lines ∧
      (∀ u, (added.map Post.Url).count u =
        if u ∈ doc.Channel.Item.map RSSItem.Link ∧ u ∉ w.db.posts.map Post.Url then 1
        else 0) ∧
      lines.count duplicateURL + added.length = doc.Channel.Item.length := by
  rw [scrapeFeeds_of_ok env specStore w feed doc hsel rfl hfetch]
  obtain ⟨added, lines, hposts, hstdout, hnodup, hmem, hcount⟩ :=
    specStore_loop env feed doc.Channel.Item
      ({ db := (specStore.MarkFeedFetched w.db ⟨feed.ID, env.Now w.clock⟩).2
         stdout := w.stdout ++ ["Making request to " ++ feed.Url]
         calls := w.calls ++ [Call.GetNextFeedToFetch,
           Call.MarkFeedFetched ⟨feed.ID, env.Now w.clock⟩, Call.Do feed.Url]
         clock := w.clock + 1
         uuids := w.uuids
         requests := w.requests + 1 } : World Store)
  refine ⟨added, ("Making request to " ++ feed.Url) :: (lines ++ [separator]), ?_, ?_, ?_, ?_⟩
  · simp only [World.print, hposts]
    rfl
  · simp only [World.print, hstdout]
    simp
  · intro u
    have hm := hmem u
    have hold : (specStore.MarkFeedFetched w.db ⟨feed.ID, env.Now w.clock⟩).2.posts =
        w.db.posts := rfl
    simp only [hold] at hm
    split_ifs with h
    · exact List.count_eq_one_of_mem hnodup (hm.mpr h)
    · exact List.count_eq_zero_of_not_mem fun hu => h (hm.mp hu)
  · rw [List.count_cons_of_ne (requestLine_ne feed.Url).symm, List.count_append,
      List.count_cons_of_ne separator_ne.symm, List.count_nil]
    omega

/-- C9, the scenario of the spec: a document with two items of the same link
`http://x/1`, on a store without posts, stores exactly one post and prints exactly one
`DuplicateURL` line. -/
theorem scrapeFeeds_stores_each_url_once_witness :
    (∃ (added : List Post) (lines : List String),
      (scrapeFeeds sampleEnv specStore dupWorld).2.db.posts = dupWorld.db.posts ++ added ∧
      (scrapeFeeds sampleEnv specStore dupWorld).2.stdout = dupWorld.stdout ++ lines ∧
      (∀ u, (added.map Post.Url).count u =
        if u ∈ dupDoc.Channel.Item.map RSSItem.Link ∧ u ∉ dupWorld.db.posts.map Post.Url
        then 1 else 0) ∧
      lines.count duplicateURL + added.length = dupDoc.Channel.Item.length) ∧
    dupDoc.Channel.Item.map RSSItem.Link = ["http://x/1", "http://x/1"] ∧
    (scrapeFeeds sampleEnv specStore dupWorld).2.db.posts.map Post.Url = ["http://x/1"] ∧
    (scrapeFeeds sampleEnv specStore dupWorld).2.stdout.count duplicateURL = 1 :=
  ⟨scrapeFeeds_stores_each_url_once sampleEnv dupWorld (sampleFeed 7 "http://x/dup") dupDoc
    rfl rfl, by decide, by decide, by decide⟩

end Cycle

/-! ## fetchFeed and the agg loop -/

section Agg

variable {σ : Type}

/-- C2: on the sample feed `fetchFeed` unescapes the channel title and description, but the
items of the returned document still hold the decoded text with its entities
(`A &amp; B`, `1 &lt; 2`), which is not `html.UnescapeString` of the decoded value
(`A & B`, `1 < 2`): the loop at main.go:212 assigns to the copy `item` made by `range`. -/
theorem fetchFeed_items_keep_entities :
    (fetchFeed sampleEnv "http://x/feed" feedWorld).1.2 = none ∧
    (fetchFeed sampleEnv "http://x/feed" feedWorld).1.1.Channel.Title = "News & More" ∧
    (fetchFeed sampleEnv "http://x/feed" feedWorld).1.1.Channel.Description = "All <new>" ∧
    (fetchFeed sampleEnv "http://x/feed" feedWorld).1.1.Channel.Item.map
      (fun item => (item.Title, item.Description)) =
      [("A &amp; B", "1 &lt; 2"), ("Second", "two"), ("Third", "three")] ∧
    feedDoc.Channel.Item.map (fun item =>
      (sampleEnv.UnescapeString item.Title, sampleEnv.UnescapeString item.Description)) =
      [("A & B", "1 < 2"), ("Second", "two"), ("Third", "three")] := by
  decide

/-- C1: the intervals `0s` and `-5s` parse without error, to 0 and to -5 seconds, and
`handlerAgg` then does not return an error: `time.NewTicker` panics. No cycle has run and no
ticker exists at that point. An interval that does not parse makes `handlerAgg` return the
parse error. -/
theorem handlerAgg_nonpositive_interval_panics :
    sampleEnv.ParseDuration "0s" = .ok 0 ∧
    sampleEnv.ParseDuration "-5s" = .ok (-5000000000) ∧
    (handlerAgg sampleEnv specStore 0 ⟨"agg", ["0s"]⟩ feedWorld).1 =
      Outcome.panicked "non-positive interval for NewTicker" ∧
    (handlerAgg sampleEnv specStore 0 ⟨"agg", ["-5s"]⟩ feedWorld).1 =
      Outcome.panicked "non-positive interval for NewTicker" ∧
    (handlerAgg sampleEnv specStore 0 ⟨"agg", ["0s"]⟩ feedWorld).2.calls = [] ∧
    (handlerAgg sampleEnv specStore 0 ⟨"agg", ["-5s"]⟩ feedWorld).2.calls = [] ∧
    (handlerAgg sampleEnv specStore 0 ⟨"agg", ["soon"]⟩ feedWorld).1 =
      Outcome.returned (some "time: invalid duration \"soon\"") :=
  ⟨rfl, rfl, by decide, by decide, by decide, by decide, by decide⟩

/-- C7: for an interval that parses to a positive duration, `handlerAgg` has not returned
after any number of ticks: it is waiting for the next tick. It has run one cycle at once
(`ticks = 0`) and one more per tick, each on the world the previous cycle left, whatever
that cycle returned: the value of `scrapeFeeds` is not looked at. -/
theorem handlerAgg_keeps_running (env : Env) (q : Queries σ) (w : World σ) (name s : String)
    (d : Int) (ticks : Nat)
    (hparse : env.ParseDuration s = .ok d) (hpos : 0 < d) :
    (handlerAgg env q ticks ⟨name, [s]⟩ w).1 = Outcome.waiting ∧
    (handlerAgg env q 0 ⟨name, [s]⟩ w).2 =
      (scrapeFeeds env q
        ((w.record (Call.NewTicker d)).print ("Collecting feeds every " ++ s))).2 ∧
    (handlerAgg env q (ticks + 1) ⟨name, [s]⟩ w).2 =
      (scrapeFeeds env q (handlerAgg env q ticks ⟨name, [s]⟩ w).2).2 ∧
    selections (handlerAgg env q ticks ⟨name, [s]⟩ w).2.calls =
      selections w.calls + (ticks + 1) := by
  have hrun : ∀ n, handlerAgg env q n ⟨name, [s]⟩ w =
      (Outcome.waiting, handlerAgg.loop env q n
        ((w.record (Call.NewTicker d)).print ("Collecting feeds every " ++ s))) := by
    intro n
    simp [handlerAgg, hparse, NewTicker, not_le.mpr hpos]
  refine ⟨by rw [hrun], by rw [hrun]; rfl, by rw [hrun, hrun]; rfl, ?_⟩
  rw [hrun, handlerAgg.loop_selections]
  simp [World.print, World.record, selections_append, selections]

/-- C7, on a store without feeds: every cycle fails and the loop goes on. -/
theorem handlerAgg_keeps_running_witness :
    (handlerAgg sampleEnv specStore 3 ⟨"agg", ["1s"]⟩ (World.start emptyStore)).1 =
      Outcome.waiting ∧
    (handlerAgg sampleEnv specStore 0 ⟨"agg", ["1s"]⟩ (World.start emptyStore)).2 =
      (scrapeFeeds sampleEnv specStore
        (((World.start emptyStore).record (Call.NewTicker 1000000000)).print
          ("Collecting feeds every " ++ "1s"))).2 ∧
    (handlerAgg sampleEnv specStore (3 + 1) ⟨"agg", ["1s"]⟩ (World.start emptyStore)).2 =
      (scrapeFeeds sampleEnv specStore
        (handlerAgg sampleEnv specStore 3 ⟨"agg", ["1s"]⟩ (World.start emptyStore)).2).2 ∧
    selections (handlerAgg sampleEnv specStore 3 ⟨"agg", ["1s"]⟩
        (World.start emptyStore)).2.calls =
      selections (World.start emptyStore).calls + (3 + 1) :=
  handlerAgg_keeps_running sampleEnv specStore (World.start emptyStore) "agg" "1s"
    1000000000 3 rfl (by decide)

/-- C8: a cycle run by the agg loop that fails prints no line for its error. On a store
without feeds the cycles fail at selection and the console holds the start line only; on a
feed whose host is unreachable the cycle fails at the fetch and the console holds the start
line and the request line. -/
theorem handlerAgg_drops_cycle_errors :
    (scrapeFeeds sampleEnv specStore
      (((World.start emptyStore).record (Call.NewTicker 1000000000)).print
        "Collecting feeds every 1s")).1 = some "sql: no rows in result set" ∧
    (handlerAgg sampleEnv specStore 2 ⟨"agg", ["1s"]⟩ (World.start emptyStore)).2.stdout =
      ["Collecting feeds every 1s"] ∧
    (scrapeFeeds sampleEnv specStore
      ((downWorld.record (Call.NewTicker 1000000000)).print
        "Collecting feeds every 1s")).1 =
      some "Get http://y/feed: dial tcp: no such host" ∧
    (handlerAgg sampleEnv specStore 0 ⟨"agg", ["1s"]⟩ downWorld).2.stdout =
      ["Collecting feeds every 1s", "Making request to http://y/feed"] := by
  decide

end Agg

end Gator
